import Mathlib

/-!
Shallow embedding of the two CloudCartography scripts (src/GCP/gcp.py and
src/OCI/oci.py).  Both scripts read a Terraform state snapshot (JSON), build a
flat resource table, map resource types to icon classes, infer connections by
attribute matching, and hand the nodes and edges to an external diagram
library.  The embedding models the Python data (JSON values, dicts, sets),
the Python failure modes the scripts can hit (KeyError, TypeError,
AttributeError, NameError), and the scripts' own logic; rendering by the
external library is out of scope, so a diagram is represented by its node
table and the list of edges passed to the rendering calls.
-/

/-- JSON values as produced by json.load.  Numbers are restricted to
integers; the scripts never perform arithmetic and no claim involves
non-integer numbers.  An obj represents a parsed Python dict, so its keys
are unique by construction. -/
inductive JValue where
  | str : String → JValue
  | num : Int → JValue
  | bool : Bool → JValue
  | null : JValue
  | arr : List JValue → JValue
  | obj : List (String × JValue) → JValue

/-- Python exceptions that the two scripts can raise. -/
inductive PyErr where
  | keyError : String → PyErr
  | typeError : String → PyErr
  | attributeError : String → PyErr
  | nameError : String → PyErr
deriving DecidableEq, Repr

/-- A single quote character, used by the embedding of Python str()/repr(). -/
def squote : String := String.singleton (Char.ofNat 39)

/-- A double quote character. -/
def dquote : String := String.singleton (Char.ofNat 34)

/-- Python str(e) for the exceptions above (str of a KeyError is the repr of
the missing key). -/
def errStr : PyErr → String
  | .keyError k => squote ++ k ++ squote
  | .typeError m => m
  | .attributeError m => m
  | .nameError n => "name " ++ squote ++ n ++ squote ++ " is not defined"

/-- First-match lookup in an assoc list (Python dict lookup; dict keys are
unique, so first match is the binding). -/
def dictGet? {α : Type} (d : List (String × α)) (k : String) : Option α :=
  (d.find? (fun p => decide (p.1 = k))).map (·.2)

/-- Python d.get(k, default). -/
def dictGetD {α : Type} (d : List (String × α)) (k : String) (v : α) : α :=
  (dictGet? d k).getD v

/-- Python d[k] = v: replace the binding in place when the key is present,
append it otherwise (insertion-ordered dict semantics). -/
def dictInsert {α : Type} (d : List (String × α)) (k : String) (v : α) :
    List (String × α) :=
  if d.any (fun p => decide (p.1 = k)) then
    d.map (fun p => if p.1 = k then (k, v) else p)
  else
    d ++ [(k, v)]

/-- Python k in d for a dict. -/
def hasKey {α : Type} (d : List (String × α)) (k : String) : Bool :=
  d.any (fun p => decide (p.1 = k))

/-- Python set.add on an insertion-ordered duplicate-free list. -/
def setAdd (s : List String) (x : String) : List String :=
  if x ∈ s then s else s ++ [x]

mutual

/-- Python == on JSON values: equal bools and ints compare equal across the
two types (True == 1), lists compare elementwise, dicts compare as key-value
maps. -/
def pyEq : JValue → JValue → Bool
  | .str a, .str b => decide (a = b)
  | .num a, .num b => decide (a = b)
  | .bool a, .bool b => decide (a = b)
  | .bool a, .num b => decide ((if a then (1 : Int) else 0) = b)
  | .num a, .bool b => decide (a = (if b then (1 : Int) else 0))
  | .null, .null => true
  | .arr as, .arr bs => pyEqList as bs
  | .obj as, .obj bs => decide (as.length = bs.length) && pyObjLe as bs
  | _, _ => false

/-- Elementwise Python == on lists. -/
def pyEqList : List JValue → List JValue → Bool
  | [], [] => true
  | a :: as, b :: bs => pyEq a b && pyEqList as bs
  | _, _ => false

/-- Every binding of the first dict is present with an equal value in the
second; with equal lengths and unique keys this is dict equality. -/
def pyObjLe : List (String × JValue) → List (String × JValue) → Bool
  | [], _ => true
  | (k, v) :: rest, bs =>
    match (bs.find? (fun p => decide (p.1 = k))).map (·.2) with
    | some w => pyEq v w && pyObjLe rest bs
    | none => false

end

/-- Python truthiness of a JSON value. -/
def pyTruthy : JValue → Bool
  | .str s => decide (s ≠ "")
  | .num n => decide (n ≠ 0)
  | .bool b => b
  | .null => false
  | .arr xs => !xs.isEmpty
  | .obj kvs => !kvs.isEmpty

/-- Infix test on character lists. -/
def listIsInfixOf (needle : List Char) : List Char → Bool
  | [] => needle.isEmpty
  | c :: rest => needle.isPrefixOf (c :: rest) || listIsInfixOf needle rest

/-- Substring containment, Python needle in haystack on strings ("" is a
substring of everything, as in Python). -/
def strContains (hay needle : String) : Bool :=
  listIsInfixOf needle.data hay.data

/-- Python v[k] with a string key: dict lookup (KeyError when absent); any
other receiver raises a TypeError. -/
def pyIndex (v : JValue) (k : String) : Except PyErr JValue :=
  match v with
  | .obj kvs =>
    match dictGet? kvs k with
    | some w => .ok w
    | none => .error (.keyError k)
  | .str _ => .error (.typeError "string indices must be integers")
  | .arr _ => .error (.typeError "list indices must be integers or slices, not str")
  | _ => .error (.typeError "object is not subscriptable")

/-- Python iteration over a JSON value: lists yield elements, strings yield
one-character strings, dicts yield their keys, the rest raise TypeError. -/
def pyIter (v : JValue) : Except PyErr (List JValue) :=
  match v with
  | .arr xs => .ok xs
  | .str s => .ok (s.data.map (fun c => .str (String.singleton c)))
  | .obj kvs => .ok (kvs.map (fun p => .str p.1))
  | _ => .error (.typeError "object is not iterable")

/-- Fetching the .get method of a value: succeeds exactly on dicts
(AttributeError otherwise, as in Python). -/
def pyGetMethod (v : JValue) : Except PyErr (List (String × JValue)) :=
  match v with
  | .obj kvs => .ok kvs
  | _ => .error (.attributeError "object has no attribute get")

/-- Python attrs.get(k, default) on an already-checked dict. -/
def jLookupD (kvs : List (String × JValue)) (k : String) (d : JValue) : JValue :=
  dictGetD kvs k d

/-- Python x in container.  A string container requires a string operand
(TypeError otherwise) and tests substring containment; a list tests
membership under Python ==; a dict tests key membership (non-hashable
operands raise TypeError, other scalars are simply not string keys). -/
def pyInJ (x : JValue) (container : JValue) : Except PyErr Bool :=
  match container with
  | .str hay =>
    match x with
    | .str s => .ok (strContains hay s)
    | _ => .error (.typeError "in <string> requires string as left operand")
  | .arr xs => .ok (xs.any (fun y => pyEq x y))
  | .obj kvs =>
    match x with
    | .str s => .ok (hasKey kvs s)
    | .arr _ => .error (.typeError "unhashable type")
    | .obj _ => .error (.typeError "unhashable type")
    | _ => .ok false
  | _ => .error (.typeError "argument is not iterable")

/-- Python needle in v for a string literal needle. -/
def pyInS (needle : String) (v : JValue) : Except PyErr Bool :=
  pyInJ (.str needle) v

/-- Split a character list on a separator character; the result is never
empty and splitting the empty list gives one empty piece, as Python
"".split(sep) gives [""]. -/
def splitOnChar (sep : Char) : List Char → List (List Char)
  | [] => [[]]
  | c :: rest =>
    let r := splitOnChar sep rest
    if c = sep then [] :: r
    else
      match r with
      | [] => [[c]]
      | h :: t => (c :: h) :: t

/-- Last component of Python s.split('/'): the piece after the final slash,
the whole string when there is none. -/
def lastSeg (s : String) : String :=
  String.mk ((splitOnChar (Char.ofNat 47) s.data).getLastD [])

/-- Python attrs.get(k, '').split('/')[-1]: the default is the empty string;
a present non-string value has no .split and raises AttributeError. -/
def pyGetSplitLast (kvs : List (String × JValue)) (k : String) :
    Except PyErr String :=
  match dictGet? kvs k with
  | none => .ok (lastSeg "")
  | some (.str s) => .ok (lastSeg s)
  | some _ => .error (.attributeError "object has no attribute split")

/-- Quote and escape for the embedding of Python repr on strings: single
quotes unless the string itself holds one, as in Python (escape sequences for
control characters are not reproduced; no claim inspects them). -/
def pyQuoteStr (s : String) : String :=
  if s.contains (Char.ofNat 39) then dquote ++ s ++ dquote
  else squote ++ s ++ squote

mutual

/-- Python repr of a JSON value; used by str() on containers. -/
def pyRepr : JValue → String
  | .str s => pyQuoteStr s
  | .num n => toString n
  | .bool b => if b then "True" else "False"
  | .null => "None"
  | .arr xs => "[" ++ String.intercalate ", " (pyReprList xs) ++ "]"
  | .obj kvs =>
    "\x7b" ++ String.intercalate ", " (pyReprObj kvs) ++ "\x7d"

/-- Reprs of the elements of a list value. -/
def pyReprList : List JValue → List String
  | [] => []
  | x :: xs => pyRepr x :: pyReprList xs

/-- Reprs of the bindings of a dict value. -/
def pyReprObj : List (String × JValue) → List String
  | [] => []
  | p :: rest => (pyQuoteStr p.1 ++ ": " ++ pyRepr p.2) :: pyReprObj rest

end

/-- Python str() of a JSON value, as used by f-string interpolation. -/
def pyStr : JValue → String
  | .str s => s
  | v => pyRepr v

/-- Icon classes the two scripts import from the diagrams library.  gcp.py
imports Subnet from diagrams.generic.network but not Switch; oci.py imports
Switch, Firewall and Router from diagrams.generic.network. -/
inductive Icon where
  | computeEngine
  | virtualPrivateCloud
  | genericSubnet
  | firewallRules
  | gcpRouter
  | gcpNAT
  | gcpStorage
  | gcpSQL
  | bigquery
  | iam
  | resourceManager
  | gcpRoutes
  | genericRack
  | genericSwitch
  | genericStorage
  | genericSQL
  | genericDatacenter
  | ociVM
  | ociVcn
  | ociBlockStorage
  | ociObjectStorage
  | ociDatabaseService
  | genericFirewall
  | genericRouter
deriving DecidableEq, Repr

/-- The fixed lookup table of gcp.py's map_resource_to_icon. -/
def gcp_mappings : List (String × Icon) :=
  [("google_compute_instance", .computeEngine),
   ("google_compute_network", .virtualPrivateCloud),
   ("google_compute_subnetwork", .genericSubnet),
   ("google_compute_firewall", .firewallRules),
   ("google_compute_router", .gcpRouter),
   ("google_compute_router_nat", .gcpNAT),
   ("google_storage_bucket", .gcpStorage),
   ("google_sql_database_instance", .gcpSQL),
   ("google_bigquery_dataset", .bigquery),
   ("google_iam_policy", .iam),
   ("google_compute_route", .gcpRoutes),
   ("google_project", .resourceManager)]

/-- The fallback chain of gcp.py's map_resource_to_icon for resource types
absent from gcp_mappings.  The branch for types containing "network" returns
the name Switch, which gcp.py never imports, so reaching it raises a
NameError at run time. -/
def gcpFallback (rt : JValue) : Except PyErr Icon := do
  if (← pyInS "compute" rt) then pure .genericRack
  else if (← pyInS "network" rt) then .error (.nameError "Switch")
  else if (← pyInS "storage" rt) then pure .genericStorage
  else if (← pyInS "database" rt) then pure .genericSQL
  else if (← pyInS "security" rt) then pure .iam
  else if (← pyInS "iam" rt) then pure .iam
  else if (← pyInS "project" rt) then pure .resourceManager
  else if (← pyInS "resource_manager" rt) then pure .resourceManager
  else pure .genericDatacenter

/-- gcp.py map_resource_to_icon: table lookup when the type is a key of
gcp_mappings, otherwise the fallback chain.  A non-hashable resource type
cannot be tested for dict membership (TypeError). -/
def map_resource_to_icon_gcp (rt : JValue) : Except PyErr Icon :=
  match rt with
  | .str s =>
    match dictGet? gcp_mappings s with
    | some icon => .ok icon
    | none => gcpFallback (.str s)
  | .arr _ => .error (.typeError "unhashable type")
  | .obj _ => .error (.typeError "unhashable type")
  | v => gcpFallback v

/-- The fixed lookup table of oci.py's map_resource_to_icon. -/
def oci_mappings : List (String × Icon) :=
  [("oci_core_instance", .ociVM),
   ("oci_core_vcn", .ociVcn),
   ("oci_core_subnet", .genericSwitch),
   ("oci_core_security_list", .genericFirewall),
   ("oci_core_route_table", .genericRouter),
   ("oci_core_nat_gateway", .genericRouter),
   ("oci_core_internet_gateway", .genericRouter),
   ("oci_core_service_gateway", .genericRouter),
   ("oci_core_volume", .ociBlockStorage),
   ("oci_objectstorage_bucket", .ociObjectStorage),
   ("oci_database_db_system", .ociDatabaseService),
   ("oci_core_network_security_group", .genericFirewall),
   ("oci_core_network_security_group_security_rule", .genericFirewall)]

/-- oci.py map_resource_to_icon: oci_mappings.get(resource_type, Datacenter).
A non-hashable resource type raises TypeError inside dict.get. -/
def map_resource_to_icon_oci (rt : JValue) : Except PyErr Icon :=
  match rt with
  | .str s => .ok ((dictGet? oci_mappings s).getD .genericDatacenter)
  | .arr _ => .error (.typeError "unhashable type")
  | .obj _ => .error (.typeError "unhashable type")
  | _ => .ok .genericDatacenter

/-- One entry of the resource table: the raw type and name values and the
instance's attributes dict, exactly the Python dict stored per resource id. -/
structure Resource where
  type : JValue
  name : JValue
  attributes : List (String × JValue)

/-- The flat resource table, a Python dict keyed by the synthesized id. -/
abbrev ResTable : Type := List (String × Resource)

/-- The synthesized resource id f-string of both scripts,
f"resource_type.resource_name". -/
def resourceIdOf (r : Resource) : String :=
  pyStr r.type ++ "." ++ pyStr r.name

/-- gcp.py per-instance record: resource_name is
instance.attributes.get(name, resource[name]); evaluation order follows
Python (attributes lookup, .get fetch, then the default argument). -/
def gcpInstRecord (rtype : JValue) (rv iv : JValue) : Except PyErr Resource := do
  let av ← pyIndex iv "attributes"
  let attrs ← pyGetMethod av
  let fallback ← pyIndex rv "name"
  pure ⟨rtype, jLookupD attrs "name" fallback, attrs⟩

/-- oci.py per-instance record: resource_name is
attributes.get(display_name, attributes.get(name, resource[name])). -/
def ociInstRecord (rtype : JValue) (rv iv : JValue) : Except PyErr Resource := do
  let av ← pyIndex iv "attributes"
  let attrs ← pyGetMethod av
  let fallback ← pyIndex rv "name"
  pure ⟨rtype, jLookupD attrs "display_name" (jLookupD attrs "name" fallback), attrs⟩

/-- The shared parse loop of both scripts' parse_terraform_state: iterate
state_data[resources], take each resource's type, iterate its instances,
compute the record, and store it under the synthesized id (a repeated id
silently overwrites the previous dict entry). -/
def runParse (instRec : JValue → JValue → JValue → Except PyErr Resource)
    (j : JValue) : Except PyErr ResTable := do
  let rsv ← pyIndex j "resources"
  let rs ← pyIter rsv
  rs.foldlM (fun acc rv => do
    let rtype ← pyIndex rv "type"
    let isv ← pyIndex rv "instances"
    let insts ← pyIter isv
    insts.foldlM (fun acc2 iv => do
      let r ← instRec rtype rv iv
      pure (dictInsert acc2 (resourceIdOf r) r)) acc) []

/-- gcp.py parse_terraform_state applied to the loaded JSON value. -/
def parse_terraform_state_gcp (j : JValue) : Except PyErr ResTable :=
  runParse gcpInstRecord j

/-- oci.py parse_terraform_state applied to the loaded JSON value. -/
def parse_terraform_state_oci (j : JValue) : Except PyErr ResTable :=
  runParse ociInstRecord j

/-- The connections map of generate_diagram: a dict from resource id to the
set of connected ids (sets kept as insertion-ordered duplicate-free lists). -/
abbrev Conns : Type := List (String × List String)

/-- connections[k].add(v): KeyError when k has no entry yet, exactly as in
Python (gcp.py initializes entries one loop iteration at a time, so adds
into a not-yet-visited resource's entry raise). -/
def connAdd (c : Conns) (k v : String) : Except PyErr Conns :=
  match dictGet? c k with
  | none => .error (.keyError k)
  | some s => .ok (dictInsert c k (setAdd s v))

/-- Perform a list of connections[k].add(v) operations in order. -/
def applyAdds (c : Conns) : List (String × String) → Except PyErr Conns
  | [] => .ok c
  | p :: ps => do applyAdds (← connAdd c p.1 p.2) ps

/-- The generic attribute matching of gcp.py generate_diagram: for every
string-valued attribute and every other resource whose name occurs in the
value as a substring, connect this resource to the other (the name
containment test precedes the id inequality test, as in the source). -/
def gcpGenericPairs (resources : ResTable) (rid : String) (r : Resource) :
    Except PyErr (List (String × String)) :=
  r.attributes.foldlM (fun acc p =>
    match p.2 with
    | .str value =>
      resources.foldlM (fun acc2 q => do
        let b ← pyInJ q.2.name (.str value)
        if b && decide (q.1 ≠ rid) then pure (acc2 ++ [(rid, q.1)])
        else pure acc2) acc
    | _ => pure acc) []

/-- The google_compute_instance block of gcp.py: for each other resource,
a bidirectional pair with a subnetwork whose name equals the last slash-segment
of the subnetwork attribute, and a one-way pair with a network whose name
equals the last slash-segment of the network attribute. -/
def gcpInstancePairs (resources : ResTable) (rid : String) (r : Resource) :
    Except PyErr (List (String × String)) := do
  let subnet_id ← pyGetSplitLast r.attributes "subnetwork"
  let network_id ← pyGetSplitLast r.attributes "network"
  pure ((resources.map (fun q =>
    if q.1 ≠ rid then
      (if pyEq q.2.type (.str "google_compute_subnetwork") &&
          pyEq q.2.name (.str subnet_id)
       then [(rid, q.1), (q.1, rid)] else []) ++
      (if pyEq q.2.type (.str "google_compute_network") &&
          pyEq q.2.name (.str network_id)
       then [(rid, q.1)] else [])
    else [])).flatten)

/-- The google_compute_subnetwork block of gcp.py: connect to the matching
network, and to every instance whose subnetwork attribute contains this
subnetwork's name as a substring. -/
def gcpSubnetworkPairs (resources : ResTable) (rid : String) (r : Resource) :
    Except PyErr (List (String × String)) := do
  let network_id ← pyGetSplitLast r.attributes "network"
  resources.foldlM (fun acc q =>
    if q.1 ≠ rid then do
      let acc2 := acc ++
        (if pyEq q.2.type (.str "google_compute_network") &&
            pyEq q.2.name (.str network_id)
         then [(rid, q.1)] else [])
      if pyEq q.2.type (.str "google_compute_instance") then do
        let b ← pyInJ r.name (jLookupD q.2.attributes "subnetwork" (.str ""))
        if b then pure (acc2 ++ [(rid, q.1)]) else pure acc2
      else pure acc2
    else pure acc) []

/-- The google_compute_firewall block of gcp.py: connect to the matching
network, and to every instance with no condition at all. -/
def gcpFirewallPairs (resources : ResTable) (rid : String) (r : Resource) :
    Except PyErr (List (String × String)) := do
  let network_id ← pyGetSplitLast r.attributes "network"
  pure ((resources.map (fun q =>
    if q.1 ≠ rid then
      (if pyEq q.2.type (.str "google_compute_network") &&
          pyEq q.2.name (.str network_id)
       then [(rid, q.1)] else []) ++
      (if pyEq q.2.type (.str "google_compute_instance")
       then [(rid, q.1)] else [])
    else [])).flatten)

/-- The google_compute_router block of gcp.py. -/
def gcpRouterPairs (resources : ResTable) (rid : String) (r : Resource) :
    Except PyErr (List (String × String)) := do
  let network_id ← pyGetSplitLast r.attributes "network"
  pure ((resources.map (fun q =>
    if q.1 ≠ rid then
      if pyEq q.2.type (.str "google_compute_network") &&
         pyEq q.2.name (.str network_id)
      then [(rid, q.1)] else []
    else [])).flatten)

/-- The google_compute_router_nat block of gcp.py: the router attribute is
compared raw (no splitting) against each router's name. -/
def gcpRouterNatPairs (resources : ResTable) (rid : String) (r : Resource) :
    List (String × String) :=
  let router_name := jLookupD r.attributes "router" (.str "")
  (resources.map (fun q =>
    if q.1 ≠ rid then
      if pyEq q.2.type (.str "google_compute_router") &&
         pyEq q.2.name router_name
      then [(rid, q.1)] else []
    else [])).flatten

/-- Dispatch over resource type for the type-specific connection blocks of
gcp.py generate_diagram. -/
def gcpSpecificPairs (resources : ResTable) (rid : String) (r : Resource) :
    Except PyErr (List (String × String)) :=
  if pyEq r.type (.str "google_compute_instance") then
    gcpInstancePairs resources rid r
  else if pyEq r.type (.str "google_compute_subnetwork") then
    gcpSubnetworkPairs resources rid r
  else if pyEq r.type (.str "google_compute_firewall") then
    gcpFirewallPairs resources rid r
  else if pyEq r.type (.str "google_compute_router") then
    gcpRouterPairs resources rid r
  else if pyEq r.type (.str "google_compute_router_nat") then
    .ok (gcpRouterNatPairs resources rid r)
  else .ok []

/-- One iteration of the gcp.py connection loop for one resource: first
connections[resource_id] = set(), then the generic attribute matches, then
the type-specific matches.  All additions into other resources' entries go
through connAdd and hence KeyError when that entry does not exist yet. -/
def gcpStep (resources : ResTable) (c : Conns) (p : String × Resource) :
    Except PyErr Conns := do
  let c0 := dictInsert c p.1 []
  let gp ← gcpGenericPairs resources p.1 p.2
  let c1 ← applyAdds c0 gp
  let sp ← gcpSpecificPairs resources p.1 p.2
  applyAdds c1 sp

/-- The whole connection-building loop of gcp.py generate_diagram; the
connections dict starts empty and entries are created lazily per iteration. -/
def gcpBuildConnections (resources : ResTable) : Except PyErr Conns :=
  resources.foldlM (gcpStep resources) []

/-- Bidirectional additions connections[rid].add(other) plus
connections[other].add(rid) for every other resource satisfying a test; the
shape of every add in oci.py generate_diagram. -/
def pairBoth (resources : ResTable) (rid : String)
    (cond : String × Resource → Bool) : List (String × String) :=
  (resources.map (fun q =>
    if cond q then [(rid, q.1), (q.1, rid)] else [])).flatten

/-- The vcn_id matching shared by several oci.py branches: when the vcn_id
attribute is truthy, connect bidirectionally to every oci_core_vcn whose id
attribute equals it. -/
def ociVcnPairs (resources : ResTable) (rid : String)
    (attrs : List (String × JValue)) : List (String × String) :=
  let vcn_id := jLookupD attrs "vcn_id" .null
  if pyTruthy vcn_id then
    pairBoth resources rid (fun q =>
      pyEq q.2.type (.str "oci_core_vcn") &&
      pyEq (jLookupD q.2.attributes "id" .null) vcn_id)
  else []

/-- The five oci.py types whose branch only matches their vcn. -/
def ociGatewayTypes : List String :=
  ["oci_core_security_list", "oci_core_route_table", "oci_core_nat_gateway",
   "oci_core_internet_gateway", "oci_core_service_gateway"]

/-- The type-specific connection pairs of oci.py generate_diagram for one
resource, followed by the unconditional compartment matching that runs for
every resource.  All tests use Python == on raw attribute values, so this
computation is total. -/
def ociSpecificPairs (resources : ResTable) (rid : String) (r : Resource) :
    List (String × String) :=
  let attrs := r.attributes
  (if pyEq r.type (.str "oci_core_instance") then
    (let subnet_id := jLookupD attrs "subnet_id" .null
     if pyTruthy subnet_id then
       pairBoth resources rid (fun q =>
         pyEq q.2.type (.str "oci_core_subnet") &&
         pyEq (jLookupD q.2.attributes "id" .null) subnet_id)
     else []) ++
    pairBoth resources rid (fun q =>
      pyEq q.2.type (.str "oci_core_network_security_group"))
  else if pyEq r.type (.str "oci_core_subnet") then
    ociVcnPairs resources rid attrs
  else if ociGatewayTypes.any (fun t => pyEq r.type (.str t)) then
    ociVcnPairs resources rid attrs
  else if pyEq r.type (.str "oci_core_network_security_group") then
    ociVcnPairs resources rid attrs ++
    pairBoth resources rid (fun q =>
      pyEq q.2.type (.str "oci_core_instance"))
  else if pyEq r.type (.str "oci_core_network_security_group_security_rule") then
    (let nsg_id := jLookupD attrs "network_security_group_id" .null
     if pyTruthy nsg_id then
       pairBoth resources rid (fun q =>
         pyEq q.2.type (.str "oci_core_network_security_group") &&
         pyEq (jLookupD q.2.attributes "id" .null) nsg_id)
     else [])
  else []) ++
  (let compartment_id := jLookupD attrs "compartment_id" .null
   if pyTruthy compartment_id then
     pairBoth resources rid (fun q =>
       pyEq q.2.type (.str "oci_identity_compartment") &&
       pyEq (jLookupD q.2.attributes "id" .null) compartment_id)
   else [])

/-- One iteration of the oci.py connection loop. -/
def ociStep (resources : ResTable) (c : Conns) (p : String × Resource) :
    Except PyErr Conns :=
  applyAdds c (ociSpecificPairs resources p.1 p.2)

/-- The whole connection-building loop of oci.py generate_diagram; unlike
gcp.py, oci.py pre-initializes one empty set per resource id before the
loop. -/
def ociBuildConnections (resources : ResTable) : Except PyErr Conns :=
  resources.foldlM (ociStep resources)
    (resources.foldl (fun c p => dictInsert c p.1 []) [])

/-- A drawn node: its icon class and its label, icon_class(resource[name]). -/
abbrev NodeV : Type := Icon × JValue

/-- The node-creation loop shared by both generate_diagram functions. -/
def buildNodes (mapIcon : JValue → Except PyErr Icon) (resources : ResTable) :
    Except PyErr (List (String × NodeV)) :=
  resources.foldlM (fun acc p => do
    let icon ← mapIcon p.2.type
    pure (dictInsert acc p.1 (icon, p.2.name))) []

/-- The edge-drawing loop shared verbatim by both scripts: an edge is passed
to the rendering call exactly when its source id is a node key, its target
id is a node key, and the two ids differ, in that order of tests. -/
def drawEdges (nodes : List (String × NodeV)) (conns : Conns) :
    List (String × String) :=
  (conns.map (fun p =>
    p.2.filterMap (fun t =>
      if hasKey nodes p.1 && hasKey nodes t && decide (p.1 ≠ t)
      then some (p.1, t) else none))).flatten

/-- gcp.py generate_diagram: build the nodes, build the connections, and
return the list of edges handed to the rendering calls. -/
def generate_diagram_gcp (resources : ResTable) :
    Except PyErr (List (String × String)) := do
  let nodes ← buildNodes map_resource_to_icon_gcp resources
  let conns ← gcpBuildConnections resources
  pure (drawEdges nodes conns)

/-- oci.py generate_diagram. -/
def generate_diagram_oci (resources : ResTable) :
    Except PyErr (List (String × String)) := do
  let nodes ← buildNodes map_resource_to_icon_oci resources
  let conns ← ociBuildConnections resources
  pure (drawEdges nodes conns)

/-- The body of the try block of gcp.py main: parse the loaded state and
generate the diagram.  The load argument stands for the outcome of
open(state_file) plus json.load. -/
def gcpRun (load : Except PyErr JValue) :
    Except PyErr (List (String × String)) := do
  generate_diagram_gcp (← parse_terraform_state_gcp (← load))

/-- The body of the try block of oci.py main. -/
def ociRun (load : Except PyErr JValue) :
    Except PyErr (List (String × String)) := do
  generate_diagram_oci (← parse_terraform_state_oci (← load))

/-- One declared command-line option. -/
structure ArgSpec where
  name : String
  required : Bool
  dflt : Option String
deriving DecidableEq, Repr

/-- The two options gcp.py declares on its ArgumentParser. -/
def gcp_arguments : List ArgSpec :=
  [⟨"--state", true, none⟩,
   ⟨"--output", false, some "infrastructure_diagram"⟩]

/-- The two options oci.py declares on its ArgumentParser. -/
def oci_arguments : List ArgSpec :=
  [⟨"--state", true, none⟩,
   ⟨"--output", false, some "oci_infrastructure_diagram"⟩]

/-- Resolution of declared options against the supplied ones, following
argparse's documented behaviour for required and default: a missing
required option is a usage error (argparse exits with status 2 before main's
try block runs), a missing optional one takes its default. -/
def resolveArgs (specs : List ArgSpec) (supplied : List (String × String)) :
    Except String (List (String × String)) :=
  specs.foldlM (fun acc spec =>
    match dictGet? supplied spec.name with
    | some v => .ok (dictInsert acc spec.name v)
    | none =>
      match spec.dflt with
      | some d => .ok (dictInsert acc spec.name d)
      | none =>
        if spec.required then
          .error ("the following arguments are required: " ++ spec.name)
        else .ok acc) []

/-- Observable outcome of one script run: the exit status and what was
printed to stdout and stderr by the script's own code. -/
structure MainOutcome where
  exitCode : Nat
  stdout : Option String
  stderr : Option String
deriving DecidableEq, Repr

/-- gcp.py main over the supplied options and the state-file load outcome:
argparse errors exit 2; any exception from the try block is caught by the
single except clause, printed, and turned into sys.exit(1); otherwise the
success message is printed and the script falls off the end with status 0. -/
def main_gcp (supplied : List (String × String)) (load : Except PyErr JValue) :
    MainOutcome :=
  match resolveArgs gcp_arguments supplied with
  | .error msg => ⟨2, none, some msg⟩
  | .ok args =>
    match gcpRun load with
    | .ok _ =>
      ⟨0, some ("Infrastructure diagram generated successfully! Saved as " ++
        dictGetD args "--output" "" ++ ".png"), none⟩
    | .error e => ⟨1, none, some ("An error occurred: " ++ errStr e)⟩

/-- oci.py main, identical except for the declared options. -/
def main_oci (supplied : List (String × String)) (load : Except PyErr JValue) :
    MainOutcome :=
  match resolveArgs oci_arguments supplied with
  | .error msg => ⟨2, none, some msg⟩
  | .ok args =>
    match ociRun load with
    | .ok _ =>
      ⟨0, some ("Infrastructure diagram generated successfully! Saved as " ++
        dictGetD args "--output" "" ++ ".png"), none⟩
    | .error e => ⟨1, none, some ("An error occurred: " ++ errStr e)⟩

/-- connections[k] holds v: the query the drawn-edge loop and the claims
about inferred connections are phrased in. -/
def connHas (c : Conns) (k v : String) : Bool :=
  match dictGet? c k with
  | some s => decide (v ∈ s)
  | none => false

/-- The iterated value of state_data[resources]. -/
def stateResources (j : JValue) : Except PyErr (List JValue) := do
  pyIter (← pyIndex j "resources")

/-- The iterated value of resource[instances]. -/
def resInstances (rv : JValue) : Except PyErr (List JValue) := do
  pyIter (← pyIndex rv "instances")

/-- Total number of instances a state file carries, the quantity the
resource table's size is compared against. -/
def stateInstanceCount (j : JValue) : Except PyErr Nat := do
  let rs ← stateResources j
  rs.foldlM (fun n rv => do
    let insts ← resInstances rv
    pure (n + insts.length)) 0

/-- Provenance of one table entry for a given per-instance record function:
the record was computed by that function from a resource value reached by
iterating state_data[resources], that resource's type value, and an
instance value reached by iterating its instances. -/
def entryFromRec (instRec : JValue → JValue → JValue → Except PyErr Resource)
    (j : JValue) (p : String × Resource) : Prop :=
  ∃ rs rv rtype insts iv,
    stateResources j = .ok rs ∧ rv ∈ rs ∧
    pyIndex rv "type" = .ok rtype ∧
    resInstances rv = .ok insts ∧ iv ∈ insts ∧
    instRec rtype rv iv = .ok p.2

/-- Provenance of one gcp.py table entry. -/
def entryFromGcp (j : JValue) (p : String × Resource) : Prop :=
  entryFromRec gcpInstRecord j p

/-- Provenance of one oci.py table entry. -/
def entryFromOci (j : JValue) (p : String × Resource) : Prop :=
  entryFromRec ociInstRecord j p

/-- The instance's attributes dict carries no display_name key (or is not a
dict at all, in which case both parsers fail identically before reading
names). -/
def instNoDisplay (iv : JValue) : Bool :=
  match pyIndex iv "attributes" with
  | .ok (.obj kvs) => !hasKey kvs "display_name"
  | _ => true

/-- No instance of this resource value carries a display_name attribute. -/
def resNoDisplay (rv : JValue) : Bool :=
  match resInstances rv with
  | .ok insts => insts.all instNoDisplay
  | .error _ => true

/-- No instance anywhere in the state carries a display_name attribute;
the hypothesis under which the two scripts' parsers coincide. -/
def stateNoDisplay (j : JValue) : Bool :=
  match stateResources j with
  | .ok rs => rs.all resNoDisplay
  | .error _ => true

/-- A minimal well-formed state for gcp.py holding one compute instance
followed by the subnetwork its subnetwork attribute points at. -/
def gcpInstanceFirstState : JValue := .obj [("resources", .arr [
  .obj [("type", .str "google_compute_instance"), ("name", .str "vm"),
        ("instances", .arr [.obj [("attributes",
          .obj [("subnetwork", .str "x/sub1")])]])],
  .obj [("type", .str "google_compute_subnetwork"), ("name", .str "sub1"),
        ("instances", .arr [.obj [("attributes", .obj [])]])]])]

/-- Claim C1: map_resource_to_icon never fails on a resource type string.
The gcp.py fallback branch for types containing "network" returns the name
Switch, which gcp.py does not import, so the real Terraform type
google_service_networking_connection raises NameError there; the oci.py
version of the function returns the Datacenter fallback for the same
string.  This refutes the never-fails part of the claim for the GCP
script. -/
theorem map_resource_to_icon_gcp_name_error :
    map_resource_to_icon_gcp (.str "google_service_networking_connection") =
      .error (.nameError "Switch") ∧
    map_resource_to_icon_oci (.str "google_service_networking_connection") =
      .ok .genericDatacenter := ⟨rfl, rfl⟩

/-- Claim C6: on the minimal well-formed state gcpInstanceFirstState, whose
resources are two ordinary GCP resources, gcp.py exits with status 1
instead of 0: the connection loop initializes connections[resource_id] one
iteration at a time, so the bidirectional instance-to-subnetwork add hits
the not-yet-initialized subnetwork entry and raises KeyError. -/
theorem main_gcp_keyerror_on_wellformed_state :
    main_gcp [("--state", "terraform.tfstate")] (.ok gcpInstanceFirstState) =
      ⟨1, none, some ("An error occurred: " ++ squote ++
        "google_compute_subnetwork.sub1" ++ squote)⟩ ∧
    gcpRun (.ok gcpInstanceFirstState) =
      .error (.keyError "google_compute_subnetwork.sub1") := ⟨rfl, rfl⟩

/-- A state whose single resource carries two instances that synthesize the
same id (neither instance has a name attribute, so both fall back to the
resource name). -/
def dupIdState : JValue := .obj [("resources", .arr [
  .obj [("type", .str "google_compute_instance"), ("name", .str "vm"),
        ("instances", .arr [
          .obj [("attributes", .obj [("foo", .str "1")])],
          .obj [("attributes", .obj [("foo", .str "2")])]])]])]

/-- The table dupIdState parses to: one entry, holding the attributes of the
second instance. -/
def dupIdTable : ResTable :=
  [("google_compute_instance.vm",
    ⟨.str "google_compute_instance", .str "vm", [("foo", .str "2")]⟩)]

/-- Claim C8: two instances with the same synthesized (type, name) id
collapse silently.  dupIdState carries two instances; both parsers succeed
(no error is reported), return a single-entry table, and the surviving
entry's attributes are the later instance's attributes. -/
theorem parse_duplicate_id_overwrites :
    stateInstanceCount dupIdState = .ok 2 ∧
    parse_terraform_state_gcp dupIdState = .ok dupIdTable ∧
    parse_terraform_state_oci dupIdState = .ok dupIdTable ∧
    dupIdTable.length = 1 ∧
    dictGet? dupIdTable "google_compute_instance.vm" =
      some ⟨.str "google_compute_instance", .str "vm", [("foo", .str "2")]⟩ :=
  ⟨rfl, rfl, rfl, rfl, rfl⟩

/-- Claim C10: edges passed to the rendering call are guarded: whatever the
connection-inference phase put into the connections map, a drawn edge has
distinct source and target and both ids are keys of the node table. -/
theorem drawEdges_no_self_edge (nodes : List (String × NodeV)) (conns : Conns) :
    ∀ e ∈ drawEdges nodes conns,
      e.1 ≠ e.2 ∧ hasKey nodes e.1 = true ∧ hasKey nodes e.2 = true := by
  intro e he
  simp only [drawEdges, List.mem_flatten, List.mem_map] at he
  obtain ⟨l, ⟨p, hp, rfl⟩, hel⟩ := he
  simp only [List.mem_filterMap] at hel
  obtain ⟨t, ht, hcond⟩ := hel
  split at hcond
  · next h =>
    cases hcond
    simp only [Bool.and_eq_true, decide_eq_true_eq] at h
    exact ⟨h.2, h.1.1, h.1.2⟩
  · cases hcond

/-- Concrete nodes for the drawn-edge witness. -/
def wNodes : List (String × NodeV) :=
  [("google_compute_instance.vm", (.computeEngine, .str "vm")),
   ("google_compute_subnetwork.sub", (.genericSubnet, .str "sub"))]

/-- Concrete connections for the drawn-edge witness, including a self-loop
and a dangling id that the guard must filter out. -/
def wConns : Conns :=
  [("google_compute_instance.vm",
    ["google_compute_subnetwork.sub", "google_compute_instance.vm", "ghost"])]

/-- The drawn-edge guard evaluated at a concrete diagram. -/
theorem drawEdges_no_self_edge_witness :
    ("google_compute_instance.vm", "google_compute_subnetwork.sub") ∈
      drawEdges wNodes wConns ∧
    ("google_compute_instance.vm" ≠ "google_compute_subnetwork.sub" ∧
     hasKey wNodes "google_compute_instance.vm" = true ∧
     hasKey wNodes "google_compute_subnetwork.sub" = true) :=
  ⟨by decide, drawEdges_no_self_edge wNodes wConns
    ("google_compute_instance.vm", "google_compute_subnetwork.sub") (by decide)⟩

/-- Claim C5: both mains route every exception escaping the parse or
generate phase through the single except clause, printing the stringified
error and exiting 1, uniformly in the error value. -/
theorem main_uniform_error_handling :
    (∀ supplied args load e,
      resolveArgs gcp_arguments supplied = .ok args →
      gcpRun load = .error e →
      main_gcp supplied load =
        ⟨1, none, some ("An error occurred: " ++ errStr e)⟩) ∧
    (∀ supplied args load e,
      resolveArgs oci_arguments supplied = .ok args →
      ociRun load = .error e →
      main_oci supplied load =
        ⟨1, none, some ("An error occurred: " ++ errStr e)⟩) := by
  constructor <;>
    · intro supplied args load e hargs hrun
      simp [main_gcp, main_oci, hargs, hrun]

/-- The uniform handler evaluated concretely: a failing load (missing file
parses to nothing) reaches the handler of both scripts. -/
theorem main_uniform_error_handling_witness :
    main_gcp [("--state", "terraform.tfstate")]
        (.error (.keyError "resources")) =
      ⟨1, none, some ("An error occurred: " ++ errStr (.keyError "resources"))⟩ ∧
    main_oci [("--state", "terraform.tfstate")]
        (.error (.keyError "resources")) =
      ⟨1, none, some ("An error occurred: " ++ errStr (.keyError "resources"))⟩ :=
  ⟨main_uniform_error_handling.1 [("--state", "terraform.tfstate")] _
      (.error (.keyError "resources")) (.keyError "resources") rfl rfl,
   main_uniform_error_handling.2 [("--state", "terraform.tfstate")] _
      (.error (.keyError "resources")) (.keyError "resources") rfl rfl⟩

/-- Claim C7: the CLI surface is exactly the two declared options; a missing
--state is rejected by argparse with exit status 2 whatever the state file
holds (so before any parsing), and a missing --output falls back to the
per-script default name that the success message then uses. -/
theorem cli_surface :
    (gcp_arguments.map ArgSpec.name = ["--state", "--output"] ∧
     oci_arguments.map ArgSpec.name = ["--state", "--output"]) ∧
    (∀ supplied load, dictGet? supplied "--state" = none →
      main_gcp supplied load =
        ⟨2, none, some "the following arguments are required: --state"⟩ ∧
      main_oci supplied load =
        ⟨2, none, some "the following arguments are required: --state"⟩) ∧
    (∀ supplied load es sv,
      dictGet? supplied "--state" = some sv →
      dictGet? supplied "--output" = none →
      (gcpRun load = .ok es →
        main_gcp supplied load =
          ⟨0, some ("Infrastructure diagram generated successfully! " ++
            "Saved as infrastructure_diagram.png"), none⟩) ∧
      (ociRun load = .ok es →
        main_oci supplied load =
          ⟨0, some ("Infrastructure diagram generated successfully! " ++
            "Saved as oci_infrastructure_diagram.png"), none⟩)) := by
  refine ⟨⟨rfl, rfl⟩, ?_, ?_⟩
  · intro supplied load hstate
    constructor <;>
      simp [main_gcp, main_oci, resolveArgs, gcp_arguments, oci_arguments,
        hstate, Bind.bind, Except.bind]
  · intro supplied load es sv hstate houtput
    have hga : resolveArgs gcp_arguments supplied =
        .ok [("--state", sv), ("--output", "infrastructure_diagram")] := by
      simp [resolveArgs, gcp_arguments, hstate, houtput, Bind.bind,
        Except.bind, dictInsert, Pure.pure, Except.pure]
    have hoa : resolveArgs oci_arguments supplied =
        .ok [("--state", sv), ("--output", "oci_infrastructure_diagram")] := by
      simp [resolveArgs, oci_arguments, hstate, houtput, Bind.bind,
        Except.bind, dictInsert, Pure.pure, Except.pure]
    constructor <;> intro hrun
    · simp [main_gcp, hga, hrun, dictGetD, dictGet?, List.find?]
    · simp [main_oci, hoa, hrun, dictGetD, dictGet?, List.find?]

/-- The smallest well-formed state: an empty resources list. -/
def emptyState : JValue := .obj [("resources", .arr [])]

/-- The CLI surface evaluated concretely: a missing --state exits 2 without
consulting the state, and a run with only --state saves under the default
output name. -/
theorem cli_surface_witness :
    main_gcp [] (.ok .null) =
      ⟨2, none, some "the following arguments are required: --state"⟩ ∧
    main_gcp [("--state", "terraform.tfstate")] (.ok emptyState) =
      ⟨0, some ("Infrastructure diagram generated successfully! " ++
        "Saved as infrastructure_diagram.png"), none⟩ :=
  ⟨(cli_surface.2.1 [] (.ok .null) rfl).1,
   (cli_surface.2.2 [("--state", "terraform.tfstate")] (.ok emptyState) []
      "terraform.tfstate" rfl rfl).1 rfl⟩

/-- Bind in the Except monad succeeds exactly when both stages do. -/
theorem bind_eq_ok {ε α β : Type} {x : Except ε α} {f : α → Except ε β}
    {b : β} : x >>= f = .ok b ↔ ∃ a, x = .ok a ∧ f a = .ok b := by
  cases x <;> simp [Bind.bind, Except.bind]

/-- pure in the Except monad is ok. -/
theorem pure_eq_ok {ε α : Type} {a b : α} :
    (pure a : Except ε α) = .ok b ↔ a = b := by
  simp [pure, Except.pure]

/-- In a table with duplicate-free keys, a key determines its entry. -/
theorem nodup_keys_mem_eq {α : Type} :
    ∀ {l : List (String × α)} {k : String} {a b : α},
      (l.map Prod.fst).Nodup → (k, a) ∈ l → (k, b) ∈ l → a = b := by
  intro l
  induction l with
  | nil => intro k a b _ ha; cases ha
  | cons p t ih =>
    intro k a b hnd ha hb
    obtain ⟨pk, pa⟩ := p
    simp only [List.map_cons, List.nodup_cons] at hnd
    rcases List.mem_cons.mp ha with ha1 | ha2 <;>
      rcases List.mem_cons.mp hb with hb1 | hb2
    · rw [Prod.mk.injEq] at ha1 hb1
      rw [ha1.2, hb1.2]
    · rw [Prod.mk.injEq] at ha1
      exact absurd (List.mem_map.mpr ⟨(k, b), hb2, ha1.1⟩) hnd.1
    · rw [Prod.mk.injEq] at hb1
      exact absurd (List.mem_map.mpr ⟨(k, a), ha2, hb1.1⟩) hnd.1
    · exact ih hnd.2 ha2 hb2

/-- Python == against a string literal holds exactly for that string. -/
theorem pyEq_str_iff (v : JValue) (t : String) :
    pyEq v (.str t) = true ↔ v = .str t := by
  cases v <;> simp [pyEq]

/-- Claim C3 as stated, as a property of one resource table: whenever the
connection build succeeds, an instance and a distinct subnetwork end up
connected in both directions exactly when the subnetwork's name equals the
last slash-segment of the instance's subnetwork attribute. -/
def gcpC3Claim (resources : ResTable) : Prop :=
  ∀ conns, gcpBuildConnections resources = .ok conns →
    ∀ rid r sid s, (rid, r) ∈ resources → (sid, s) ∈ resources →
      r.type = .str "google_compute_instance" →
      s.type = .str "google_compute_subnetwork" →
      rid ≠ sid →
      ∀ sub, pyGetSplitLast r.attributes "subnetwork" = .ok sub →
        ((connHas conns rid sid = true ∧ connHas conns sid rid = true) ↔
          s.name = .str sub)

/-- A subnetwork named sub and an instance whose subnetwork attribute
p/sub-2 contains that name as a substring while its last slash-segment
sub-2 differs from it. -/
def substringMatchTable : ResTable :=
  [("google_compute_subnetwork.sub",
     ⟨.str "google_compute_subnetwork", .str "sub", []⟩),
   ("google_compute_instance.vm",
     ⟨.str "google_compute_instance", .str "vm",
      [("subnetwork", .str "p/sub-2")]⟩)]

/-- Claim C3 fails on substringMatchTable: the generic substring matcher
connects the instance to the subnetwork and the subnetwork's own block
connects it back, so both directions are present although sub is not the
last slash-segment sub-2 of the subnetwork attribute. -/
theorem gcpC3Claim_counterexample : ¬ gcpC3Claim substringMatchTable := by
  intro h
  have h2 := h
    [("google_compute_subnetwork.sub", ["google_compute_instance.vm"]),
     ("google_compute_instance.vm", ["google_compute_subnetwork.sub"])]
    rfl
    "google_compute_instance.vm"
    ⟨.str "google_compute_instance", .str "vm",
      [("subnetwork", .str "p/sub-2")]⟩
    "google_compute_subnetwork.sub"
    ⟨.str "google_compute_subnetwork", .str "sub", []⟩
    (List.mem_cons_of_mem _ (List.mem_cons_self _ _))
    (List.mem_cons_self _ _)
    rfl rfl (by decide) "sub-2" rfl
  have h3 := h2.mp ⟨rfl, rfl⟩
  simp at h3

/-- Amended claim C3: restricted to the instance's own type-specific
matching step (the google_compute_instance block), the bidirectional pair
is produced exactly on a last-slash-segment name match; the full connection
map can additionally relate the two resources through the generic substring
matcher and the subnetwork-side block, as gcpC3Claim_counterexample shows. -/
theorem gcpInstancePairs_bidirectional_iff
    (resources : ResTable) (rid : String) (r : Resource)
    (sid : String) (s : Resource) (sub : String) (ps : List (String × String))
    (hnd : (resources.map Prod.fst).Nodup)
    (hs : (sid, s) ∈ resources)
    (hstype : s.type = .str "google_compute_subnetwork")
    (hne : sid ≠ rid)
    (hsub : pyGetSplitLast r.attributes "subnetwork" = .ok sub)
    (hps : gcpInstancePairs resources rid r = .ok ps) :
    ((rid, sid) ∈ ps ∧ (sid, rid) ∈ ps) ↔ s.name = .str sub := by
  unfold gcpInstancePairs at hps
  obtain ⟨sub2, hsub2, hps⟩ := bind_eq_ok.mp hps
  rw [hsub] at hsub2
  injection hsub2 with hsub2
  subst hsub2
  obtain ⟨net, hnet, hps⟩ := bind_eq_ok.mp hps
  rw [pure_eq_ok] at hps
  subst hps
  constructor
  · rintro ⟨-, h2⟩
    rw [List.mem_flatten] at h2
    obtain ⟨l, hl, h2⟩ := h2
    rw [List.mem_map] at hl
    obtain ⟨q, hq, rfl⟩ := hl
    rcases eq_or_ne q.1 rid with hqr | hqr
    · rw [if_neg (not_not_intro hqr)] at h2
      cases h2
    · rw [if_pos hqr] at h2
      rcases List.mem_append.mp h2 with h3 | h3
      · by_cases hcond : (pyEq q.2.type (.str "google_compute_subnetwork") &&
            pyEq q.2.name (.str sub)) = true
        · rw [if_pos hcond] at h3
          rcases List.mem_cons.mp h3 with h4 | h4
          · rw [Prod.mk.injEq] at h4
            exact absurd h4.1 hne
          · rcases List.mem_cons.mp h4 with h5 | h5
            · rw [Prod.mk.injEq] at h5
              have hq2 : (sid, q.2) ∈ resources := by
                rw [h5.1]
                exact hq
              have hsq : s = q.2 := nodup_keys_mem_eq hnd hs hq2
              rw [Bool.and_eq_true] at hcond
              rw [hsq]
              exact (pyEq_str_iff q.2.name sub).mp hcond.2
            · cases h5
        · rw [if_neg hcond] at h3
          cases h3
      · by_cases hcond : (pyEq q.2.type (.str "google_compute_network") &&
            pyEq q.2.name (.str net)) = true
        · rw [if_pos hcond] at h3
          rcases List.mem_cons.mp h3 with h4 | h4
          · rw [Prod.mk.injEq] at h4
            exact absurd h4.1 hne
          · cases h4
        · rw [if_neg hcond] at h3
          cases h3
  · intro hname
    have hcond : (pyEq s.type (.str "google_compute_subnetwork") &&
        pyEq s.name (.str sub)) = true := by
      rw [hstype, hname]
      simp [pyEq]
    constructor <;>
    · rw [List.mem_flatten]
      refine ⟨_, List.mem_map.mpr ⟨(sid, s), hs, rfl⟩, ?_⟩
      rw [if_pos hne, List.mem_append]
      left
      rw [if_pos hcond]
      simp

/-- A subnetwork and an instance whose subnetwork attribute last segment is
exactly the subnetwork's name. -/
def matchTable : ResTable :=
  [("google_compute_subnetwork.sub1",
     ⟨.str "google_compute_subnetwork", .str "sub1", []⟩),
   ("google_compute_instance.vm",
     ⟨.str "google_compute_instance", .str "vm",
      [("subnetwork", .str "x/sub1")]⟩)]

/-- The pairs the instance block emits on matchTable. -/
def matchPairs : List (String × String) :=
  [("google_compute_instance.vm", "google_compute_subnetwork.sub1"),
   ("google_compute_subnetwork.sub1", "google_compute_instance.vm")]

/-- The amended claim evaluated at a concrete matching table. -/
theorem gcpInstancePairs_bidirectional_iff_witness :
    (("google_compute_instance.vm", "google_compute_subnetwork.sub1") ∈
        matchPairs ∧
     ("google_compute_subnetwork.sub1", "google_compute_instance.vm") ∈
        matchPairs) ↔ JValue.str "sub1" = .str "sub1" :=
  gcpInstancePairs_bidirectional_iff matchTable "google_compute_instance.vm"
    ⟨.str "google_compute_instance", .str "vm",
      [("subnetwork", .str "x/sub1")]⟩
    "google_compute_subnetwork.sub1"
    ⟨.str "google_compute_subnetwork", .str "sub1", []⟩
    "sub1" matchPairs (by decide) (List.mem_cons_self _ _) rfl (by decide)
    rfl rfl

/-- A dict insert preserves an entry property that the new binding has. -/
theorem dictInsert_forall {α : Type} (P : String × α → Prop)
    (d : List (String × α)) (k : String) (v : α)
    (hd : ∀ q ∈ d, P q) (hkv : P (k, v)) :
    ∀ q ∈ dictInsert d k v, P q := by
  intro q hq
  unfold dictInsert at hq
  split at hq
  · rw [List.mem_map] at hq
    obtain ⟨p, hp, rfl⟩ := hq
    by_cases hpk : p.1 = k
    · rw [if_pos hpk]
      exact hkv
    · rw [if_neg hpk]
      exact hd p hp
  · rcases List.mem_append.mp hq with h | h
    · exact hd q h
    · rw [List.mem_singleton] at h
      subst h
      exact hkv

/-- A dict insert preserves duplicate-freedom of the keys: replacing in
place keeps the key list, appending adds a key that was absent. -/
theorem dictInsert_nodup {α : Type} (d : List (String × α)) (k : String)
    (v : α) (hd : (d.map Prod.fst).Nodup) :
    ((dictInsert d k v).map Prod.fst).Nodup := by
  unfold dictInsert
  split
  · have hkeys : (d.map (fun p => if p.1 = k then (k, v) else p)).map Prod.fst
        = d.map Prod.fst := by
      rw [List.map_map]
      apply List.map_congr_left
      intro p _
      by_cases hpk : p.1 = k
      · simp [hpk]
      · simp [hpk]
    rw [hkeys]
    exact hd
  · next h =>
    rw [List.map_append]
    simp only [List.map_cons, List.map_nil]
    rw [List.nodup_append]
    refine ⟨hd, List.nodup_singleton _, ?_⟩
    intro a ha
    rw [List.mem_map] at ha
    obtain ⟨p, hp, rfl⟩ := ha
    rw [List.mem_singleton]
    intro hak
    rw [List.any_eq_true] at h
    exact h ⟨p, hp, decide_eq_true hak⟩

/-- Invariant of the inner instance loop of runParse: every produced entry
is keyed by its own synthesized id and has provenance, and keys stay
duplicate-free. -/
theorem parse_inst_fold
    (instRec : JValue → JValue → JValue → Except PyErr Resource)
    (j : JValue) (rs : List JValue) (hstate : stateResources j = .ok rs)
    (rv : JValue) (hrv : rv ∈ rs) (rtype : JValue)
    (htype : pyIndex rv "type" = .ok rtype)
    (insts : List JValue) (hinsts : resInstances rv = .ok insts) :
    ∀ l : List JValue, (∀ iv ∈ l, iv ∈ insts) →
      ∀ acc t : ResTable,
        (∀ p ∈ acc, p.1 = resourceIdOf p.2 ∧ entryFromRec instRec j p) →
        (acc.map Prod.fst).Nodup →
        (l.foldlM (fun acc2 iv => do
            let r ← instRec rtype rv iv
            pure (dictInsert acc2 (resourceIdOf r) r)) acc) = .ok t →
        (∀ p ∈ t, p.1 = resourceIdOf p.2 ∧ entryFromRec instRec j p) ∧
        (t.map Prod.fst).Nodup := by
  intro l
  induction l with
  | nil =>
    intro _ acc t hacc hnd hfold
    rw [List.foldlM_nil, pure_eq_ok] at hfold
    subst hfold
    exact ⟨hacc, hnd⟩
  | cons iv l ih =>
    intro hsub acc t hacc hnd hfold
    rw [List.foldlM_cons] at hfold
    obtain ⟨acc', hstep, hfold⟩ := bind_eq_ok.mp hfold
    obtain ⟨r, hrec, hp⟩ := bind_eq_ok.mp hstep
    rw [pure_eq_ok] at hp
    subst hp
    refine ih (fun x hx => hsub x (List.mem_cons_of_mem _ hx)) _ t ?_ ?_ hfold
    · exact dictInsert_forall _ acc _ r hacc
        ⟨rfl, rs, rv, rtype, insts, iv, hstate, hrv, htype, hinsts,
          hsub iv (List.mem_cons_self _ _), hrec⟩
    · exact dictInsert_nodup acc _ r hnd

/-- Invariant of the outer resource loop of runParse. -/
theorem parse_res_fold
    (instRec : JValue → JValue → JValue → Except PyErr Resource)
    (j : JValue) (rs : List JValue) (hstate : stateResources j = .ok rs) :
    ∀ l : List JValue, (∀ rv ∈ l, rv ∈ rs) →
      ∀ acc t : ResTable,
        (∀ p ∈ acc, p.1 = resourceIdOf p.2 ∧ entryFromRec instRec j p) →
        (acc.map Prod.fst).Nodup →
        (l.foldlM (fun acc rv => do
            let rtype ← pyIndex rv "type"
            let isv ← pyIndex rv "instances"
            let insts ← pyIter isv
            insts.foldlM (fun acc2 iv => do
              let r ← instRec rtype rv iv
              pure (dictInsert acc2 (resourceIdOf r) r)) acc) acc) = .ok t →
        (∀ p ∈ t, p.1 = resourceIdOf p.2 ∧ entryFromRec instRec j p) ∧
        (t.map Prod.fst).Nodup := by
  intro l
  induction l with
  | nil =>
    intro _ acc t hacc hnd hfold
    rw [List.foldlM_nil, pure_eq_ok] at hfold
    subst hfold
    exact ⟨hacc, hnd⟩
  | cons rv l ih =>
    intro hsub acc t hacc hnd hfold
    rw [List.foldlM_cons] at hfold
    obtain ⟨acc', hstep, hfold⟩ := bind_eq_ok.mp hfold
    obtain ⟨rtype, htype, hstep⟩ := bind_eq_ok.mp hstep
    obtain ⟨isv, hisv, hstep⟩ := bind_eq_ok.mp hstep
    obtain ⟨insts, hiter, hstep⟩ := bind_eq_ok.mp hstep
    have hinsts : resInstances rv = .ok insts := by
      unfold resInstances
      rw [hisv]
      simpa [Bind.bind, Except.bind] using hiter
    have hmid := parse_inst_fold instRec j rs hstate rv
      (hsub rv (List.mem_cons_self _ _)) rtype htype insts hinsts
      insts (fun x hx => hx) acc acc' hacc hnd hstep
    exact ih (fun x hx => hsub x (List.mem_cons_of_mem _ hx)) acc' t
      hmid.1 hmid.2 hfold

/-- The table shape runParse guarantees: keys synthesized from the entry's
own fields, provenance from the input JSON, duplicate-free keys. -/
theorem runParse_table_inv
    (instRec : JValue → JValue → JValue → Except PyErr Resource)
    (j : JValue) (t : ResTable) (hp : runParse instRec j = .ok t) :
    (∀ p ∈ t, p.1 = resourceIdOf p.2 ∧ entryFromRec instRec j p) ∧
    (t.map Prod.fst).Nodup := by
  unfold runParse at hp
  obtain ⟨rsv, hrsv, hp⟩ := bind_eq_ok.mp hp
  obtain ⟨rs, hrs, hp⟩ := bind_eq_ok.mp hp
  have hstate : stateResources j = .ok rs := by
    unfold stateResources
    rw [hrsv]
    simpa [Bind.bind, Except.bind] using hrs
  exact parse_res_fold instRec j rs hstate rs (fun x hx => hx) [] t
    (by intro p hp; cases hp) (by simp) hp

/-- Claim C2: a successfully parsed state yields a flat table in which
every entry's key is the f-string type.name built from that entry's own
stored type and name, the entry's attributes dict is the attributes object
of one instance of the input JSON (the provenance in entryFromGcp and
entryFromOci), and the keys are unique; for both scripts' parsers. -/
theorem parse_terraform_state_table_shape :
    (∀ j t, parse_terraform_state_gcp j = .ok t →
      (∀ p ∈ t, p.1 = resourceIdOf p.2 ∧ entryFromGcp j p) ∧
      (t.map Prod.fst).Nodup) ∧
    (∀ j t, parse_terraform_state_oci j = .ok t →
      (∀ p ∈ t, p.1 = resourceIdOf p.2 ∧ entryFromOci j p) ∧
      (t.map Prod.fst).Nodup) :=
  ⟨fun j t hp => runParse_table_inv gcpInstRecord j t hp,
   fun j t hp => runParse_table_inv ociInstRecord j t hp⟩

/-- The table gcpInstanceFirstState parses to. -/
def instanceFirstTable : ResTable :=
  [("google_compute_instance.vm",
     ⟨.str "google_compute_instance", .str "vm",
      [("subnetwork", .str "x/sub1")]⟩),
   ("google_compute_subnetwork.sub1",
     ⟨.str "google_compute_subnetwork", .str "sub1", []⟩)]

/-- The parse-table shape evaluated at a concrete state. -/
theorem parse_terraform_state_table_shape_witness :
    (∀ p ∈ instanceFirstTable,
      p.1 = resourceIdOf p.2 ∧ entryFromGcp gcpInstanceFirstState p) ∧
    (instanceFirstTable.map Prod.fst).Nodup :=
  parse_terraform_state_table_shape.1 gcpInstanceFirstState
    instanceFirstTable rfl

/-- Congruence for Except folds: pointwise equal step functions fold
equally. -/
theorem foldlM_congr_except {α β : Type} (f g : α → β → Except PyErr α) :
    ∀ l : List β, (∀ x ∈ l, ∀ a, f a x = g a x) →
      ∀ a, l.foldlM f a = l.foldlM g a := by
  intro l
  induction l with
  | nil => intro _ a; rfl
  | cons x xs ih =>
    intro h a
    rw [List.foldlM_cons, List.foldlM_cons, h x (List.mem_cons_self _ _)]
    cases hgx : g a x with
    | error e => rfl
    | ok a' =>
      simp only [Bind.bind, Except.bind]
      exact ih (fun y hy => h y (List.mem_cons_of_mem _ hy)) a'

/-- An absent key makes the lookup empty. -/
theorem dictGet?_eq_none_of_hasKey {α : Type} (d : List (String × α))
    (k : String) (h : hasKey d k = false) : dictGet? d k = none := by
  unfold hasKey at h
  rw [List.any_eq_false] at h
  unfold dictGet?
  rw [List.find?_eq_none.mpr h]
  rfl

/-- With no display_name key in the attributes, oci.py's per-instance
record computation agrees with gcp.py's, error cases included. -/
theorem instRecord_agree (rtype rv iv : JValue)
    (h : instNoDisplay iv = true) :
    ociInstRecord rtype rv iv = gcpInstRecord rtype rv iv := by
  unfold ociInstRecord gcpInstRecord
  cases hav : pyIndex iv "attributes" with
  | error e => rfl
  | ok av =>
    simp only [Bind.bind, Except.bind]
    cases av with
    | obj kvs =>
      simp only [pyGetMethod]
      cases hfb : pyIndex rv "name" with
      | error e => rfl
      | ok fb =>
        have hnod : hasKey kvs "display_name" = false := by
          unfold instNoDisplay at h
          rw [hav] at h
          simpa using h
        have hlook : jLookupD kvs "display_name" (jLookupD kvs "name" fb) =
            jLookupD kvs "name" fb := by
          unfold jLookupD dictGetD
          rw [dictGet?_eq_none_of_hasKey kvs "display_name" hnod]
          rfl
        show (pure ⟨rtype, jLookupD kvs "display_name"
            (jLookupD kvs "name" fb), kvs⟩ : Except PyErr Resource) =
          pure ⟨rtype, jLookupD kvs "name" fb, kvs⟩
        rw [hlook]
    | str sv => rfl
    | num n => rfl
    | bool b => rfl
    | null => rfl
    | arr xs => rfl

set_option maxHeartbeats 1000000 in
/-- Claim C4: on every state in which no instance's attributes contain a
display_name key, oci.py's parse_terraform_state computes exactly what
gcp.py's computes: the same table on success and the same error
otherwise. -/
theorem parse_terraform_state_agree (j : JValue)
    (h : stateNoDisplay j = true) :
    parse_terraform_state_oci j = parse_terraform_state_gcp j := by
  unfold parse_terraform_state_oci parse_terraform_state_gcp runParse
  cases hrsv : pyIndex j "resources" with
  | error e => rfl
  | ok rsv =>
    simp only [Bind.bind, Except.bind]
    cases hiter : pyIter rsv with
    | error e => rfl
    | ok rs =>
      have hsr : stateResources j = .ok rs := by
        unfold stateResources
        rw [hrsv]
        simpa [Bind.bind, Except.bind] using hiter
      simp only [stateNoDisplay, hsr, List.all_eq_true] at h
      apply foldlM_congr_except
      intro rv hrv acc
      have hres := h rv hrv
      cases htype : pyIndex rv "type" with
      | error e => rfl
      | ok rtype =>
        simp only [Bind.bind, Except.bind]
        cases hisv : pyIndex rv "instances" with
        | error e => rfl
        | ok isv =>
          simp only [Bind.bind, Except.bind]
          cases hins : pyIter isv with
          | error e => rfl
          | ok insts =>
            simp only [Bind.bind, Except.bind]
            have hri : resInstances rv = .ok insts := by
              unfold resInstances
              rw [hisv]
              simpa [Bind.bind, Except.bind] using hins
            simp only [resNoDisplay, hri, List.all_eq_true] at hres
            apply foldlM_congr_except
            intro iv hiv acc2
            rw [instRecord_agree rtype rv iv (hres iv hiv)]

/-- The parser agreement evaluated at a concrete display_name-free state. -/
theorem parse_terraform_state_agree_witness :
    stateNoDisplay gcpInstanceFirstState = true ∧
    parse_terraform_state_oci gcpInstanceFirstState =
      parse_terraform_state_gcp gcpInstanceFirstState :=
  ⟨rfl, parse_terraform_state_agree gcpInstanceFirstState rfl⟩

/-- Lookup steps through a cons cell. -/
theorem dictGet?_cons {α : Type} (p : String × α) (t : List (String × α))
    (k : String) :
    dictGet? (p :: t) k = if p.1 = k then some p.2 else dictGet? t k := by
  by_cases h : p.1 = k <;> simp [dictGet?, List.find?, h]

/-- Replacing the bindings of one key does not disturb other lookups. -/
theorem dictGet?_map_replace_ne {α : Type} (k k' : String) (v : α)
    (hne : k' ≠ k) :
    ∀ d : List (String × α),
      dictGet? (d.map (fun p => if p.1 = k then (k, v) else p)) k' =
        dictGet? d k' := by
  intro d
  induction d with
  | nil => rfl
  | cons p t ih =>
    rw [List.map_cons, dictGet?_cons, dictGet?_cons]
    by_cases hpk : p.1 = k
    · rw [if_pos hpk]
      have h1 : ((k, v) : String × α).1 = k' ↔ False := by
        simp
        exact fun he => hne he.symm
      rw [if_neg (by simpa using h1.mp), if_neg (by rw [hpk]; exact fun he => hne he.symm)]
      exact ih
    · rw [if_neg hpk]
      by_cases hpk' : p.1 = k'
      · rw [if_pos hpk', if_pos hpk']
      · rw [if_neg hpk', if_neg hpk']
        exact ih

/-- Replacing a present key's binding makes its lookup the new value. -/
theorem dictGet?_map_replace_self {α : Type} (k : String) (v : α) :
    ∀ d : List (String × α), hasKey d k = true →
      dictGet? (d.map (fun p => if p.1 = k then (k, v) else p)) k = some v := by
  intro d
  induction d with
  | nil => intro h; cases h
  | cons p t ih =>
    intro h
    rw [List.map_cons]
    by_cases hpk : p.1 = k
    · rw [if_pos hpk, dictGet?_cons]
      simp
    · rw [if_neg hpk, dictGet?_cons, if_neg hpk]
      apply ih
      unfold hasKey at h ⊢
      simp only [List.any_cons, Bool.or_eq_true] at h
      rcases h with h1 | h1
      · exact absurd (of_decide_eq_true h1) hpk
      · exact h1

/-- Appending a fresh binding: found bindings win, the new one is the
fallback. -/
theorem dictGet?_append_single {α : Type} (k k' : String) (v : α) :
    ∀ d : List (String × α),
      dictGet? (d ++ [(k, v)]) k' =
        match dictGet? d k' with
        | some w => some w
        | none => if k = k' then some v else none := by
  intro d
  induction d with
  | nil =>
    rw [List.nil_append, dictGet?_cons]
    rfl
  | cons p t ih =>
    rw [List.cons_append, dictGet?_cons, dictGet?_cons]
    by_cases hpk : p.1 = k'
    · rw [if_pos hpk, if_pos hpk]
    · rw [if_neg hpk, if_neg hpk]
      exact ih

/-- Full characterization of lookup after a dict insert. -/
theorem dictGet?_dictInsert {α : Type} (k k' : String) (v : α)
    (d : List (String × α)) :
    dictGet? (dictInsert d k v) k' =
      if k' = k then some v else dictGet? d k' := by
  unfold dictInsert
  split
  · next hany =>
    by_cases hk' : k' = k
    · rw [if_pos hk', hk']
      exact dictGet?_map_replace_self k v d hany
    · rw [if_neg hk']
      exact dictGet?_map_replace_ne k k' v hk' d
  · next hany =>
    rw [dictGet?_append_single]
    by_cases hk' : k' = k
    · subst hk'
      have hnone : dictGet? d k' = none := by
        unfold dictGet?
        have hfind : d.find? (fun p => decide (p.1 = k')) = none := by
          rw [List.find?_eq_none]
          intro p hp
          simp only [decide_eq_true_eq]
          intro hpk
          exact hany (List.any_eq_true.mpr ⟨p, hp, decide_eq_true hpk⟩)
        rw [hfind]
        rfl
      rw [hnone]
    · rw [if_neg hk']
      cases hget : dictGet? d k' with
      | some w => rfl
      | none => rw [if_neg (fun he => hk' he.symm)]

/-- setAdd keeps every member. -/
theorem mem_setAdd_of_mem {s : List String} {x : String} (y : String)
    (h : x ∈ s) : x ∈ setAdd s y := by
  unfold setAdd
  split
  · exact h
  · exact List.mem_append.mpr (Or.inl h)

/-- setAdd contains the added element. -/
theorem mem_setAdd_self (s : List String) (y : String) : y ∈ setAdd s y := by
  unfold setAdd
  split
  · next h => exact h
  · exact List.mem_append.mpr (Or.inr (List.mem_singleton.mpr rfl))

/-- Key presence is exactly lookup success. -/
theorem hasKey_eq_isSome_dictGet? {α : Type} (d : List (String × α))
    (k : String) : hasKey d k = (dictGet? d k).isSome := by
  induction d with
  | nil => rfl
  | cons p t ih =>
    rw [dictGet?_cons]
    unfold hasKey at ih ⊢
    rw [List.any_cons]
    by_cases hpk : p.1 = k
    · simp [hpk]
    · simp [hpk, ih]

/-- A set.add into a present entry succeeds. -/
theorem connAdd_ok_of_hasKey {c : Conns} {a : String} (b : String)
    (h : hasKey c a = true) : ∃ c', connAdd c a b = .ok c' := by
  rw [hasKey_eq_isSome_dictGet?] at h
  obtain ⟨s, hs⟩ := Option.isSome_iff_exists.mp h
  exact ⟨_, by unfold connAdd; rw [hs]⟩

/-- A successful connAdd preserves every present connection. -/
theorem connAdd_mono {c c' : Conns} {a b : String}
    (h : connAdd c a b = .ok c') {k v : String}
    (hkv : connHas c k v = true) : connHas c' k v = true := by
  unfold connAdd at h
  cases hg : dictGet? c a with
  | none => rw [hg] at h; cases h
  | some s =>
    rw [hg] at h
    injection h with h
    subst h
    unfold connHas at hkv ⊢
    rw [dictGet?_dictInsert]
    by_cases hka : k = a
    · rw [if_pos hka]
      subst hka
      rw [hg] at hkv
      simp only [decide_eq_true_eq] at hkv ⊢
      exact mem_setAdd_of_mem b hkv
    · rw [if_neg hka]
      exact hkv

/-- A successful connAdd establishes its own connection. -/
theorem connAdd_self {c c' : Conns} {a b : String}
    (h : connAdd c a b = .ok c') : connHas c' a b = true := by
  unfold connAdd at h
  cases hg : dictGet? c a with
  | none => rw [hg] at h; cases h
  | some s =>
    rw [hg] at h
    injection h with h
    subst h
    unfold connHas
    rw [dictGet?_dictInsert, if_pos rfl]
    simp only [decide_eq_true_eq]
    exact mem_setAdd_self s b

/-- A successful connAdd does not change the key set. -/
theorem connAdd_hasKey {c c' : Conns} {a b : String}
    (h : connAdd c a b = .ok c') (k : String) : hasKey c' k = hasKey c k := by
  unfold connAdd at h
  cases hg : dictGet? c a with
  | none => rw [hg] at h; cases h
  | some s =>
    rw [hg] at h
    injection h with h
    subst h
    rw [hasKey_eq_isSome_dictGet?, hasKey_eq_isSome_dictGet?,
      dictGet?_dictInsert]
    by_cases hka : k = a
    · rw [if_pos hka, hka, hg]
      rfl
    · rw [if_neg hka]

/-- applyAdds preserves every present connection. -/
theorem applyAdds_mono :
    ∀ {ps : List (String × String)} {c c' : Conns},
      applyAdds c ps = .ok c' →
      ∀ {k v : String}, connHas c k v = true → connHas c' k v = true := by
  intro ps
  induction ps with
  | nil =>
    intro c c' h k v hkv
    unfold applyAdds at h
    injection h with h
    subst h
    exact hkv
  | cons p t ih =>
    intro c c' h k v hkv
    unfold applyAdds at h
    obtain ⟨c1, hadd, hrest⟩ := bind_eq_ok.mp h
    exact ih hrest (connAdd_mono hadd hkv)

/-- applyAdds establishes every connection it performed. -/
theorem applyAdds_mem :
    ∀ {ps : List (String × String)} {c c' : Conns},
      applyAdds c ps = .ok c' → ∀ p ∈ ps, connHas c' p.1 p.2 = true := by
  intro ps
  induction ps with
  | nil => intro c c' _ p hp; cases hp
  | cons q t ih =>
    intro c c' h p hp
    unfold applyAdds at h
    obtain ⟨c1, hadd, hrest⟩ := bind_eq_ok.mp h
    rcases List.mem_cons.mp hp with h1 | h1
    · subst h1
      exact applyAdds_mono hrest (connAdd_self hadd)
    · exact ih hrest p h1

/-- applyAdds does not change the key set. -/
theorem applyAdds_hasKey :
    ∀ {ps : List (String × String)} {c c' : Conns},
      applyAdds c ps = .ok c' → ∀ k, hasKey c' k = hasKey c k := by
  intro ps
  induction ps with
  | nil =>
    intro c c' h k
    unfold applyAdds at h
    injection h with h
    subst h
    rfl
  | cons q t ih =>
    intro c c' h k
    unfold applyAdds at h
    obtain ⟨c1, hadd, hrest⟩ := bind_eq_ok.mp h
    rw [ih hrest k, connAdd_hasKey hadd k]

/-- applyAdds succeeds when every addition targets a present entry. -/
theorem applyAdds_ok_of_keys :
    ∀ {ps : List (String × String)} {c : Conns},
      (∀ p ∈ ps, hasKey c p.1 = true) → ∃ c', applyAdds c ps = .ok c' := by
  intro ps
  induction ps with
  | nil => intro c _; exact ⟨c, rfl⟩
  | cons q t ih =>
    intro c h
    obtain ⟨c1, hadd⟩ := connAdd_ok_of_hasKey q.2 (h q (List.mem_cons_self _ _))
    have hkeys : ∀ p ∈ t, hasKey c1 p.1 = true := by
      intro p hp
      rw [connAdd_hasKey hadd]
      exact h p (List.mem_cons_of_mem _ hp)
    obtain ⟨c', hrest⟩ := ih hkeys
    refine ⟨c', ?_⟩
    unfold applyAdds
    rw [hadd]
    simpa [Bind.bind, Except.bind] using hrest

/-- One gcp.py connection iteration for a different resource does not lose
a present connection: it only resets its own entry and performs adds. -/
theorem gcpStep_mono {resources : ResTable} {c c' : Conns}
    {p : String × Resource} (h : gcpStep resources c p = .ok c')
    {f x : String} (hne : p.1 ≠ f) (hkv : connHas c f x = true) :
    connHas c' f x = true := by
  unfold gcpStep at h
  obtain ⟨gp, hgp, h⟩ := bind_eq_ok.mp h
  obtain ⟨c1, hc1, h⟩ := bind_eq_ok.mp h
  obtain ⟨sp, hsp, h⟩ := bind_eq_ok.mp h
  have h0 : connHas (dictInsert c p.1 []) f x = true := by
    unfold connHas at hkv ⊢
    rw [dictGet?_dictInsert, if_neg (fun he => hne he.symm)]
    exact hkv
  exact applyAdds_mono h (applyAdds_mono hc1 h0)

/-- Folding gcp.py connection iterations whose keys all differ from f keeps
f's connections. -/
theorem gcpFold_mono (resources : ResTable) (f x : String) :
    ∀ (l : List (String × Resource)) (c c' : Conns),
      (∀ q ∈ l, q.1 ≠ f) →
      l.foldlM (gcpStep resources) c = .ok c' →
      connHas c f x = true → connHas c' f x = true := by
  intro l
  induction l with
  | nil =>
    intro c c' _ h hkv
    rw [List.foldlM_nil, pure_eq_ok] at h
    subst h
    exact hkv
  | cons q t ih =>
    intro c c' hne h hkv
    rw [List.foldlM_cons] at h
    obtain ⟨c1, hq, ht⟩ := bind_eq_ok.mp h
    exact ih c1 c' (fun r hr => hne r (List.mem_cons_of_mem _ hr)) ht
      (gcpStep_mono hq (hne q (List.mem_cons_self _ _)) hkv)

/-- The firewall block's pair list holds one pair per instance entry,
unconditionally. -/
theorem gcpFirewallPairs_mem {resources : ResTable} {fid : String}
    {f : Resource} {iid : String} {i : Resource} {ps : List (String × String)}
    (hps : gcpFirewallPairs resources fid f = .ok ps)
    (hi : (iid, i) ∈ resources)
    (htype : i.type = .str "google_compute_instance") (hne : iid ≠ fid) :
    (fid, iid) ∈ ps := by
  unfold gcpFirewallPairs at hps
  obtain ⟨net, hnet, hps⟩ := bind_eq_ok.mp hps
  rw [pure_eq_ok] at hps
  subst hps
  rw [List.mem_flatten]
  refine ⟨_, List.mem_map.mpr ⟨(iid, i), hi, rfl⟩, ?_⟩
  rw [if_pos hne, List.mem_append]
  right
  rw [if_pos (by rw [htype]; simp [pyEq])]
  simp

/-- The firewall's own iteration, when it succeeds, has added a connection
to every distinct instance. -/
theorem gcpStep_firewall_connects {resources : ResTable} {c c' : Conns}
    {fid : String} {f : Resource}
    (h : gcpStep resources c (fid, f) = .ok c')
    (hf : f.type = .str "google_compute_firewall")
    {iid : String} {i : Resource} (hi : (iid, i) ∈ resources)
    (htype : i.type = .str "google_compute_instance") (hne : iid ≠ fid) :
    connHas c' fid iid = true := by
  unfold gcpStep at h
  obtain ⟨gp, hgp, h⟩ := bind_eq_ok.mp h
  obtain ⟨c1, hc1, h⟩ := bind_eq_ok.mp h
  obtain ⟨sp, hsp, h⟩ := bind_eq_ok.mp h
  have hsp2 : gcpFirewallPairs resources fid f = .ok sp := by
    unfold gcpSpecificPairs at hsp
    rw [hf] at hsp
    simpa [pyEq] using hsp
  exact applyAdds_mem h (fid, iid) (gcpFirewallPairs_mem hsp2 hi htype hne)

/-- Every pair emitted by pairBoth has a source that is the iterating id or
a table key. -/
theorem pairBoth_src {resources : ResTable} {rid : String}
    {cond : String × Resource → Bool} {p : String × String}
    (hp : p ∈ pairBoth resources rid cond) :
    p.1 = rid ∨ ∃ q ∈ resources, p.1 = q.1 := by
  unfold pairBoth at hp
  rw [List.mem_flatten] at hp
  obtain ⟨l, hl, hp⟩ := hp
  rw [List.mem_map] at hl
  obtain ⟨q, hq, rfl⟩ := hl
  split at hp
  · rcases List.mem_cons.mp hp with h | h
    · left
      rw [h]
    · rcases List.mem_cons.mp h with h2 | h2
      · right
        exact ⟨q, hq, by rw [h2]⟩
      · cases h2
  · cases hp

/-- pairBoth emits both directions for every entry satisfying its test. -/
theorem pairBoth_mem (resources : ResTable) (rid : String)
    (cond : String × Resource → Bool) {q : String × Resource}
    (hq : q ∈ resources) (hc : cond q = true) :
    (rid, q.1) ∈ pairBoth resources rid cond ∧
    (q.1, rid) ∈ pairBoth resources rid cond := by
  constructor <;>
  · unfold pairBoth
    rw [List.mem_flatten]
    refine ⟨_, List.mem_map.mpr ⟨q, hq, rfl⟩, ?_⟩
    rw [if_pos hc]
    simp

/-- Sources of the vcn matching pairs. -/
theorem ociVcnPairs_src {resources : ResTable} {rid : String}
    {attrs : List (String × JValue)} {p : String × String}
    (hp : p ∈ ociVcnPairs resources rid attrs) :
    p.1 = rid ∨ ∃ q ∈ resources, p.1 = q.1 := by
  simp only [ociVcnPairs] at hp
  split at hp
  · exact pairBoth_src hp
  · cases hp

/-- Every oci.py addition targets the iterating id or a table key, so with
all table keys pre-initialized no add can fail. -/
theorem ociSpecificPairs_src {resources : ResTable} {rid : String}
    {r : Resource} {p : String × String}
    (hp : p ∈ ociSpecificPairs resources rid r) :
    p.1 = rid ∨ ∃ q ∈ resources, p.1 = q.1 := by
  simp only [ociSpecificPairs] at hp
  rcases List.mem_append.mp hp with h | h
  · split at h
    · rcases List.mem_append.mp h with h2 | h2
      · split at h2
        · exact pairBoth_src h2
        · cases h2
      · exact pairBoth_src h2
    · split at h
      · exact ociVcnPairs_src h
      · split at h
        · exact ociVcnPairs_src h
        · split at h
          · rcases List.mem_append.mp h with h2 | h2
            · exact ociVcnPairs_src h2
            · exact pairBoth_src h2
          · split at h
            · split at h
              · exact pairBoth_src h
              · cases h
            · cases h
  · split at h
    · exact pairBoth_src h
    · cases h

/-- Inserting keeps key presence. -/
theorem hasKey_dictInsert_mono {α : Type} {d : List (String × α)}
    {k : String} (k' : String) (v : α) (h : hasKey d k = true) :
    hasKey (dictInsert d k' v) k = true := by
  rw [hasKey_eq_isSome_dictGet?] at h ⊢
  rw [dictGet?_dictInsert]
  by_cases hk : k = k'
  · rw [if_pos hk]
    rfl
  · rw [if_neg hk]
    exact h

/-- Inserting establishes the inserted key. -/
theorem hasKey_dictInsert_self {α : Type} (d : List (String × α))
    (k : String) (v : α) : hasKey (dictInsert d k v) k = true := by
  rw [hasKey_eq_isSome_dictGet?, dictGet?_dictInsert, if_pos rfl]
  rfl

/-- The connections pre-initialization of oci.py covers every table key. -/
theorem preInit_hasKey :
    ∀ (l : List (String × Resource)) (c : Conns) (k : String),
      ((∃ q ∈ l, k = q.1) ∨ hasKey c k = true) →
      hasKey (l.foldl (fun c p => dictInsert c p.1 []) c) k = true := by
  intro l
  induction l with
  | nil =>
    intro c k h
    rcases h with ⟨q, hq, _⟩ | h
    · cases hq
    · exact h
  | cons p t ih =>
    intro c k h
    rw [List.foldl_cons]
    apply ih
    rcases h with ⟨q, hq, hk⟩ | h
    · rcases List.mem_cons.mp hq with h1 | h1
      · right
        rw [hk, h1]
        exact hasKey_dictInsert_self c p.1 []
      · exact Or.inl ⟨q, h1, hk⟩
    · exact Or.inr (hasKey_dictInsert_mono p.1 [] h)

/-- One oci.py connection iteration succeeds when all table keys are
present, and it preserves keys, preserves connections, and establishes its
own pairs. -/
theorem ociStep_props {resources : ResTable} {c : Conns}
    (q : String × Resource) (hq : q ∈ resources)
    (hkeys : ∀ q2 ∈ resources, hasKey c q2.1 = true) :
    ∃ c', ociStep resources c q = .ok c' ∧
      (∀ q2 ∈ resources, hasKey c' q2.1 = true) ∧
      (∀ k v, connHas c k v = true → connHas c' k v = true) ∧
      (∀ p ∈ ociSpecificPairs resources q.1 q.2,
        connHas c' p.1 p.2 = true) := by
  have hcover : ∀ p ∈ ociSpecificPairs resources q.1 q.2,
      hasKey c p.1 = true := by
    intro p hp
    rcases ociSpecificPairs_src hp with h | ⟨q2, hq2, h⟩
    · rw [h]
      exact hkeys q hq
    · rw [h]
      exact hkeys q2 hq2
  obtain ⟨c', hc'⟩ := applyAdds_ok_of_keys hcover
  refine ⟨c', hc', ?_, ?_, ?_⟩
  · intro q2 hq2
    rw [applyAdds_hasKey hc' q2.1]
    exact hkeys q2 hq2
  · intro k v hkv
    exact applyAdds_mono hc' hkv
  · exact applyAdds_mem hc'

/-- Folding oci.py connection iterations succeeds and preserves keys and
connections. -/
theorem ociFold_props (resources : ResTable) :
    ∀ (l : List (String × Resource)) (c : Conns),
      (∀ q ∈ l, q ∈ resources) →
      (∀ q2 ∈ resources, hasKey c q2.1 = true) →
      ∃ c', l.foldlM (ociStep resources) c = .ok c' ∧
        (∀ q2 ∈ resources, hasKey c' q2.1 = true) ∧
        (∀ k v, connHas c k v = true → connHas c' k v = true) := by
  intro l
  induction l with
  | nil =>
    intro c _ hkeys
    exact ⟨c, by rw [List.foldlM_nil]; rfl, hkeys, fun _ _ h => h⟩
  | cons q t ih =>
    intro c hsub hkeys
    obtain ⟨c1, hstep, hkeys1, hmono1, _⟩ :=
      ociStep_props q (hsub q (List.mem_cons_self _ _)) hkeys
    obtain ⟨c', hfold, hkeys', hmono'⟩ :=
      ih c1 (fun r hr => hsub r (List.mem_cons_of_mem _ hr)) hkeys1
    refine ⟨c', ?_, hkeys', fun k v h => hmono' k v (hmono1 k v h)⟩
    rw [List.foldlM_cons, hstep]
    simpa [Bind.bind, Except.bind] using hfold

/-- Claim C9: connections that ignore attributes entirely: in gcp.py, when
the connection build completes on a table with duplicate-free keys, every
google_compute_firewall is connected to every distinct
google_compute_instance; in oci.py the build always completes and every
oci_core_instance and every oci_core_network_security_group are connected
in both directions, with no attribute tested in either case. -/
theorem unconditional_type_connections :
    (∀ (resources : ResTable) (conns : Conns),
      (resources.map Prod.fst).Nodup →
      gcpBuildConnections resources = .ok conns →
      ∀ (fid : String) (f : Resource) (iid : String) (i : Resource),
        (fid, f) ∈ resources →
        f.type = .str "google_compute_firewall" →
        (iid, i) ∈ resources →
        i.type = .str "google_compute_instance" → iid ≠ fid →
        connHas conns fid iid = true) ∧
    (∀ (resources : ResTable) (iid nid : String) (i n : Resource),
      (iid, i) ∈ resources → i.type = .str "oci_core_instance" →
      (nid, n) ∈ resources →
      n.type = .str "oci_core_network_security_group" →
      ∃ conns, ociBuildConnections resources = .ok conns ∧
        connHas conns iid nid = true ∧ connHas conns nid iid = true) := by
  constructor
  · intro resources conns hnd hbuild fid f iid i hf hftype hi hitype hne
    obtain ⟨l1, l2, hsplit⟩ := List.append_of_mem hf
    subst hsplit
    unfold gcpBuildConnections at hbuild
    rw [List.foldlM_append] at hbuild
    obtain ⟨m1, hfold1, hbuild⟩ := bind_eq_ok.mp hbuild
    rw [List.foldlM_cons] at hbuild
    obtain ⟨m2, hstep, hfold2⟩ := bind_eq_ok.mp hbuild
    have hstepc := gcpStep_firewall_connects hstep hftype hi hitype hne
    have hl2 : ∀ q ∈ l2, q.1 ≠ fid := by
      intro q hq he
      rw [List.map_append, List.map_cons] at hnd
      have hc := (List.nodup_append.mp hnd).2.1
      rw [List.nodup_cons] at hc
      exact hc.1 (List.mem_map.mpr ⟨q, hq, he⟩)
    exact gcpFold_mono _ fid iid l2 m2 conns hl2 hfold2 hstepc
  · intro resources iid nid i n hi hitype hnsg hntype
    obtain ⟨l1, l2, hsplit⟩ := List.append_of_mem hi
    subst hsplit
    have hinst : pyEq i.type (.str "oci_core_instance") = true := by
      rw [hitype]
      simp [pyEq]
    have hcond : (fun q : String × Resource =>
        pyEq q.2.type (.str "oci_core_network_security_group"))
          (nid, n) = true := by
      simp only
      rw [hntype]
      simp [pyEq]
    have hpairs := pairBoth_mem (l1 ++ (iid, i) :: l2) iid
      (fun q => pyEq q.2.type (.str "oci_core_network_security_group"))
      hnsg hcond
    have hm1 : (iid, nid) ∈ ociSpecificPairs (l1 ++ (iid, i) :: l2) iid i := by
      simp only [ociSpecificPairs]
      rw [List.mem_append]
      left
      rw [if_pos hinst, List.mem_append]
      right
      exact hpairs.1
    have hm2 : (nid, iid) ∈ ociSpecificPairs (l1 ++ (iid, i) :: l2) iid i := by
      simp only [ociSpecificPairs]
      rw [List.mem_append]
      left
      rw [if_pos hinst, List.mem_append]
      right
      exact hpairs.2
    have hkeys0 : ∀ q2 ∈ l1 ++ (iid, i) :: l2,
        hasKey ((l1 ++ (iid, i) :: l2).foldl
          (fun c p => dictInsert c p.1 []) ([] : Conns)) q2.1 = true := by
      intro q2 hq2
      exact preInit_hasKey _ [] q2.1 (Or.inl ⟨q2, hq2, rfl⟩)
    obtain ⟨c1, hfold1, hkeys1, _⟩ :=
      ociFold_props (l1 ++ (iid, i) :: l2) l1 _
        (fun q hq => List.mem_append.mpr (Or.inl hq)) hkeys0
    obtain ⟨c2, hstep, hkeys2, _, hmem2⟩ :=
      ociStep_props (iid, i)
        (List.mem_append.mpr (Or.inr (List.mem_cons_self _ _))) hkeys1
    obtain ⟨c', hfold2, _, hmono'⟩ :=
      ociFold_props (l1 ++ (iid, i) :: l2) l2 c2
        (fun q hq => List.mem_append.mpr
          (Or.inr (List.mem_cons_of_mem _ hq))) hkeys2
    refine ⟨c', ?_, ?_, ?_⟩
    · unfold ociBuildConnections
      rw [List.foldlM_append, hfold1]
      show (Except.ok c1 >>= fun m => ((iid, i) :: l2).foldlM _ m) = _
      simp only [Bind.bind, Except.bind]
      rw [List.foldlM_cons, hstep]
      simpa [Bind.bind, Except.bind] using hfold2
    · exact hmono' iid nid (hmem2 (iid, nid) hm1)
    · exact hmono' nid iid (hmem2 (nid, iid) hm2)

/-- A firewall followed by an instance. -/
def gcpFwTable : ResTable :=
  [("google_compute_firewall.fw",
     ⟨.str "google_compute_firewall", .str "fw", []⟩),
   ("google_compute_instance.vm",
     ⟨.str "google_compute_instance", .str "vm", []⟩)]

/-- The connections gcp.py builds on gcpFwTable. -/
def gcpFwConns : Conns :=
  [("google_compute_firewall.fw", ["google_compute_instance.vm"]),
   ("google_compute_instance.vm", [])]

/-- An instance and a network security group. -/
def ociPairTable : ResTable :=
  [("oci_core_instance.vm", ⟨.str "oci_core_instance", .str "vm", []⟩),
   ("oci_core_network_security_group.nsg",
     ⟨.str "oci_core_network_security_group", .str "nsg", []⟩)]

/-- The connections oci.py builds on ociPairTable. -/
def ociPairConns : Conns :=
  [("oci_core_instance.vm", ["oci_core_network_security_group.nsg"]),
   ("oci_core_network_security_group.nsg", ["oci_core_instance.vm"])]

/-- The unconditional connections evaluated at concrete tables. -/
theorem unconditional_type_connections_witness :
    connHas gcpFwConns "google_compute_firewall.fw"
      "google_compute_instance.vm" = true ∧
    (ociBuildConnections ociPairTable = .ok ociPairConns ∧
     connHas ociPairConns "oci_core_instance.vm"
       "oci_core_network_security_group.nsg" = true ∧
     connHas ociPairConns "oci_core_network_security_group.nsg"
       "oci_core_instance.vm" = true) := by
  constructor
  · exact unconditional_type_connections.1 gcpFwTable gcpFwConns (by decide)
      rfl "google_compute_firewall.fw"
      ⟨.str "google_compute_firewall", .str "fw", []⟩
      "google_compute_instance.vm"
      ⟨.str "google_compute_instance", .str "vm", []⟩
      (List.mem_cons_self _ _) rfl
      (List.mem_cons_of_mem _ (List.mem_cons_self _ _)) rfl (by decide)
  · obtain ⟨conns, hb, h1, h2⟩ := unconditional_type_connections.2
      ociPairTable "oci_core_instance.vm"
      "oci_core_network_security_group.nsg"
      ⟨.str "oci_core_instance", .str "vm", []⟩
      ⟨.str "oci_core_network_security_group", .str "nsg", []⟩
      (List.mem_cons_self _ _) rfl
      (List.mem_cons_of_mem _ (List.mem_cons_self _ _)) rfl
    have he : conns = ociPairConns := by
      have h0 : ociBuildConnections ociPairTable = .ok ociPairConns := rfl
      rw [hb] at h0
      injection h0
    subst he
    exact ⟨hb, h1, h2⟩
